import Mathlib

/-!
Verification of the scan-score-dedup-select pipeline of the
telegram-video-bot repository, shallowly embedded from `src/db.py`
(sent-item ledger) and `src/scanner.py` (`daily_job`).

Modelling conventions:
  * message ids and channel ids are `String` (the Python code stringifies
    both before use);
  * calendar dates (`date.today()`) are day numbers in `Nat`;
  * message timestamps and the lookback cutoff are UTC seconds in `Int`
    (the `tzinfo` normalisation in the scanner only canonicalises a naive
    timestamp to UTC, which the `Int` representation already assumes);
  * the SQLite `sent_videos` table is a list of rows; its `INSERT OR
    IGNORE` honours the table's declared `PRIMARY KEY (message_id,
    channel_id)` — note the key does not include `sent_date`;
  * the external message source, publish sink and ledger-write outcomes
    are injected as explicit parameters, so a run is a pure function.
-/

namespace TVBot

/-- Video metadata attached to a message; `duration` is optional
(`video.duration or 0` in the scanner treats a missing value as 0). -/
structure Video where
  duration : Option Nat
deriving Repr, DecidableEq

/-- A message yielded by `get_chat_history`: id, UTC timestamp (seconds),
optional video payload, optional view count. -/
structure Msg where
  id    : String
  date  : Int
  video : Option Video
  views : Option Nat
deriving Repr, DecidableEq

/-- A row of the `sent_videos` table (src/db.py, lines 30-35). The
table's primary key is `(message_id, channel_id)`; `sent_date` is a
plain column. -/
structure SentRecord where
  message_id : String
  channel_id : String
  sent_date  : Nat
deriving Repr, DecidableEq

/-- Whether a `sent_videos` row matches a given (message_id, channel_id)
pair — the table's primary key. -/
def samePair (r : SentRecord) (m c : String) : Bool :=
  r.message_id == m && r.channel_id == c

/-- src/db.py `was_sent_today`: true iff a row with this message id,
channel id and `sent_date = today` exists. -/
def was_sent_today (ledger : List SentRecord) (m c : String) (today : Nat) : Bool :=
  ledger.any fun r => samePair r m c && r.sent_date == today

/-- src/db.py `mark_as_sent`: `INSERT OR IGNORE INTO sent_videos`.
SQLite ignores the insert exactly when a row with the same primary key
`(message_id, channel_id)` already exists, whatever its `sent_date`. -/
def mark_as_sent (ledger : List SentRecord) (m c : String) (today : Nat) :
    List SentRecord :=
  if ledger.any (fun r => samePair r m c) then ledger
  else ledger ++ [⟨m, c, today⟩]

/-- src/scanner.py `LOOKBACK_HOURS`: how far back each scan searches. -/
def LOOKBACK_HOURS : Nat := 24

/-- src/scanner.py `SCAN_LIMIT`: max messages checked per channel. -/
def SCAN_LIMIT : Nat := 100

/-- src/scanner.py `VIDEOS_PER_CHANNEL`: max videos sent per channel per run. -/
def VIDEOS_PER_CHANNEL : Nat := 3

/-- The scanner's video filter (src/scanner.py line 58):
`if not video or (video.duration or 0) < min_duration: continue`.
A message survives iff it carries a video whose duration (missing read
as 0) is not below the threshold. -/
def qualifies (min_duration : Nat) (m : Msg) : Bool :=
  match m.video with
  | none => false
  | some v => ! decide (v.duration.getD 0 < min_duration)

/-- The sort key of src/scanner.py line 74: `m.views or 0`. -/
def viewsOr0 (m : Msg) : Nat := m.views.getD 0

/-- The video duration of a message, a missing video or duration read
as 0 (`video.duration or 0`). -/
def durOr0 (m : Msg) : Nat :=
  match m.video with
  | none => 0
  | some v => v.duration.getD 0

/-- The scan loop body of src/scanner.py lines 50-63: walk the history
newest-first; stop at the first message dated strictly before the
cutoff; skip non-qualifying videos and messages already recorded for
today; collect the rest in discovery order. -/
def scanChannel (ledger : List SentRecord) (cutoff : Int) (min_duration today : Nat)
    (channel_id : String) : List Msg → List Msg
  | [] => []
  | m :: rest =>
    if m.date < cutoff then []
    else if qualifies min_duration m = false then
      scanChannel ledger cutoff min_duration today channel_id rest
    else if was_sent_today ledger m.id channel_id today then
      scanChannel ledger cutoff min_duration today channel_id rest
    else m :: scanChannel ledger cutoff min_duration today channel_id rest

/-- The comparator realising `candidates.sort(key=lambda m: m.views or 0,
reverse=True)`: `a` may precede `b` iff `a`'s view count is not below
`b`'s. -/
def viewsDescRel (a b : Msg) : Prop := viewsOr0 b ≤ viewsOr0 a

instance : DecidableRel viewsDescRel :=
  fun a b => inferInstanceAs (Decidable (viewsOr0 b ≤ viewsOr0 a))

instance : IsTotal Msg viewsDescRel :=
  ⟨fun a b => Nat.le_total (viewsOr0 b) (viewsOr0 a)⟩

instance : IsTrans Msg viewsDescRel :=
  ⟨fun _ _ _ h₁ h₂ => Nat.le_trans h₂ h₁⟩

/-- src/scanner.py lines 74-75: sort by views descending (Python's sort
is stable: on ties the original order survives) and take the top
`VIDEOS_PER_CHANNEL`. A stable sort is uniquely determined by
sortedness plus stability, and insertion sort under `viewsDescRel` is
exactly that list (`List.sorted_insertionSort`,
`List.pair_sublist_insertionSort`). -/
def topPerChannel (candidates : List Msg) : List Msg :=
  (candidates.insertionSort viewsDescRel).take VIDEOS_PER_CHANNEL

/-- Outcome of `get_chat_history` for one channel: either the message
history (newest-first) or the exception message it raised. -/
inductive Fetch where
  | ok (history : List Msg)
  | fail (e : String)
deriving Repr, DecidableEq

/-- The mutable state of one `daily_job` run: the `total_sent` counter,
the `scan_errors` list, the ledger (the SQLite table), and the list of
(channel_id, message) pairs successfully copied to the target. -/
structure RunState where
  total_sent  : Nat
  scan_errors : List String
  ledger      : List SentRecord
  published   : List (String × Msg)
deriving Repr, DecidableEq

/-- The per-item dispatch of src/scanner.py lines 77-93. `pubOk` tells
whether `copy_message` succeeds, `markOk` whether `mark_as_sent`
completes without raising. A raise anywhere in the `try` body is caught
and the loop continues, so on a marking failure the copy has happened
but neither the ledger nor `total_sent` is updated. -/
def dispatchItem (pubOk markOk : String → String → Bool) (channel_id : String)
    (today : Nat) (st : RunState) (m : Msg) : RunState :=
  if pubOk channel_id m.id then
    if markOk channel_id m.id then
      { st with
        ledger := mark_as_sent st.ledger m.id channel_id today
        total_sent := st.total_sent + 1
        published := st.published ++ [(channel_id, m)] }
    else
      { st with published := st.published ++ [(channel_id, m)] }
  else st

/-- One iteration of the channel loop (src/scanner.py lines 45-93):
a fetch failure is caught and recorded as a per-channel error string;
otherwise the channel is scanned, its candidates sorted, and the top
`VIDEOS_PER_CHANNEL` dispatched. -/
def processChannel (pubOk markOk : String → String → Bool) (cutoff : Int)
    (min_duration today : Nat) (st : RunState) (ch : String × String) (f : Fetch) :
    RunState :=
  match f with
  | .fail e => { st with scan_errors := st.scan_errors ++ [ch.2 ++ ": " ++ e] }
  | .ok history =>
    let candidates :=
      scanChannel st.ledger cutoff min_duration today ch.1 (history.take SCAN_LIMIT)
    if candidates.isEmpty then st
    else (topPerChannel candidates).foldl (dispatchItem pubOk markOk ch.1 today) st

/-- The distinct terminal reports of src/scanner.py lines 36-38 and
96-123: no configured channels; zero sent with scan errors; zero sent
with all channels scanned cleanly; or a success summary. -/
inductive Report where
  | noChannels
  | scanErrorsReport (errors : List String) (n_channels : Nat)
  | noQualifying (min_duration n_channels : Nat)
  | success (total n_channels : Nat) (errors : List String)
deriving Repr, DecidableEq

/-- The state at the start of a run: zero sent, no errors, the durable
ledger, nothing published yet. -/
def initState (ledger0 : List SentRecord) : RunState := ⟨0, [], ledger0, []⟩

/-- The channel loop of src/scanner.py lines 45-93: fold
`processChannel` over the configured channels. -/
def runFold (fetch : String → Fetch) (pubOk markOk : String → String → Bool)
    (cutoff : Int) (min_duration today : Nat)
    (channels : List (String × String)) (st0 : RunState) : RunState :=
  channels.foldl
    (fun st ch => processChannel pubOk markOk cutoff min_duration today st ch (fetch ch.1))
    st0

/-- src/scanner.py `daily_job` as a pure function of the injected
collaborators: the channel directory contents, the message source
(`fetch`), the publish sink (`pubOk`) and the ledger-write outcome
(`markOk`), the clock (`now` in UTC seconds, `today` as a day number)
and the configuration. Returns the operator report and the final run
state. -/
def daily_job (fetch : String → Fetch) (pubOk markOk : String → String → Bool)
    (now : Int) (today : Nat) (min_duration : Nat)
    (channels : List (String × String)) (ledger0 : List SentRecord) :
    Report × RunState :=
  if channels.isEmpty then (Report.noChannels, initState ledger0)
  else
    let cutoff := now - (LOOKBACK_HOURS : Int) * 3600
    let st := runFold fetch pubOk markOk cutoff min_duration today channels
      (initState ledger0)
    if st.total_sent == 0 then
      if st.scan_errors.isEmpty then
        (Report.noQualifying min_duration channels.length, st)
      else
        (Report.scanErrorsReport st.scan_errors channels.length, st)
    else (Report.success st.total_sent channels.length st.scan_errors, st)

/-- The candidates one channel contributes to a run started on ledger
`ledger0`: none when its fetch raises, otherwise the scan of its
history. -/
def channelCandidates (fetch : String → Fetch) (ledger0 : List SentRecord)
    (cutoff : Int) (min_duration today : Nat) (ch : String × String) : List Msg :=
  match fetch ch.1 with
  | .fail _ => []
  | .ok history =>
    scanChannel ledger0 cutoff min_duration today ch.1 (history.take SCAN_LIMIT)

/-- The error strings one channel contributes to the run report, given
its fetch outcome. -/
def fetchErrors (ch : String × String) : Fetch → List String
  | .fail e => [ch.2 ++ ": " ++ e]
  | .ok _ => []

/-- The (channel_id, message) pairs one channel contributes to the
publish list of a run started on ledger `ledger0`: the top
`VIDEOS_PER_CHANNEL` of its candidates. -/
def channelSel (fetch : String → Fetch) (ledger0 : List SentRecord) (cutoff : Int)
    (min_duration today : Nat) (ch : String × String) : List (String × Msg) :=
  (topPerChannel (channelCandidates fetch ledger0 cutoff min_duration today ch)).map
    (fun m => (ch.1, m))

/-- Modelled from the spec: the score `duration_seconds × sqrt(view_count
+ 1)` of the global-best policy, which src/scanner.py does not contain.
All quantities are nonnegative, so comparing two scores is exactly
comparing `duration² × (view_count + 1)`; this squared form keeps the
score in `Nat`. -/
def scoreSq (m : Msg) : Nat := durOr0 m ^ 2 * (viewsOr0 m + 1)

/-- Modelled from the spec: the global-best selection policy, absent
from src/scanner.py — score every candidate, pick the single
highest-scoring one, break ties first-discovered-wins, and return an
empty selection when there are zero candidates. -/
def globalBest (candidates : List Msg) : List Msg :=
  match candidates.foldl
    (fun best m =>
      match best with
      | none => some m
      | some b => if scoreSq b < scoreSq m then some m else some b)
    none with
  | none => []
  | some m => [m]

end TVBot

namespace TVBot

theorem samePair_iff (r : SentRecord) (m c : String) :
    samePair r m c = true ↔ r.message_id = m ∧ r.channel_id = c := by
  simp [samePair]

theorem was_sent_today_iff (ledger : List SentRecord) (m c : String) (today : Nat) :
    was_sent_today ledger m c today = true ↔
      ∃ r ∈ ledger, r.message_id = m ∧ r.channel_id = c ∧ r.sent_date = today := by
  simp [was_sent_today, List.any_eq_true, samePair, and_assoc]

theorem mark_as_sent_of_absent (ledger : List SentRecord) (m c : String) (today : Nat)
    (h : ∀ r ∈ ledger, samePair r m c = false) :
    mark_as_sent ledger m c today = ledger ++ [⟨m, c, today⟩] := by
  unfold mark_as_sent
  rw [if_neg]
  simp only [List.any_eq_true]
  rintro ⟨r, hr, hp⟩
  exact absurd hp (by simp [h r hr])

theorem mark_as_sent_of_present (ledger : List SentRecord) (m c : String) (today : Nat)
    (h : ∃ r ∈ ledger, samePair r m c = true) :
    mark_as_sent ledger m c today = ledger := by
  unfold mark_as_sent
  rw [if_pos]
  exact List.any_eq_true.mpr ⟨h.choose, h.choose_spec⟩

/-- C1 (counterexample): the claim fails on a prior ledger state holding
a record for the pair dated an earlier day. `sent_videos`' primary key
is `(message_id, channel_id)` without the date, so on day 1 the
`INSERT OR IGNORE` inserts nothing — no record dated day 1 appears —
and `was_sent_today` remains false after the call. -/
theorem C1_counterexample :
    mark_as_sent [⟨"m", "c", 0⟩] "m" "c" 1 = [⟨"m", "c", 0⟩] ∧
    was_sent_today (mark_as_sent [⟨"m", "c", 0⟩] "m" "c" 1) "m" "c" 1 = false := by
  decide

/-- C1 (amended): on a prior ledger holding no record for the
(message_id, channel_id) pair at all, `mark_as_sent` inserts a record
dated today; when a record for the pair already exists — whatever its
date — it is a no-op, never an error; consequently, starting from a
pair-free ledger, calling it twice on the same day leaves exactly one
record for the pair dated that day, and `was_sent_today` returns true
after either call. -/
theorem C1_mark_sent_insert_or_ignore (ledger : List SentRecord) (m c : String)
    (today : Nat) :
    ((∀ r ∈ ledger, samePair r m c = false) →
      mark_as_sent ledger m c today = ledger ++ [⟨m, c, today⟩] ∧
      was_sent_today (mark_as_sent ledger m c today) m c today = true ∧
      mark_as_sent (mark_as_sent ledger m c today) m c today =
        ledger ++ [⟨m, c, today⟩] ∧
      (mark_as_sent (mark_as_sent ledger m c today) m c today).countP
        (fun r => samePair r m c && r.sent_date == today) = 1 ∧
      was_sent_today (mark_as_sent (mark_as_sent ledger m c today) m c today)
        m c today = true) ∧
    ((∃ r ∈ ledger, samePair r m c = true) → mark_as_sent ledger m c today = ledger) := by
  constructor
  · intro h
    have h1 : mark_as_sent ledger m c today =
        ledger ++ [SentRecord.mk m c today] :=
      mark_as_sent_of_absent ledger m c today h
    have hmem : SentRecord.mk m c today ∈ ledger ++ [SentRecord.mk m c today] := by
      simp
    have h2 : was_sent_today (ledger ++ [SentRecord.mk m c today]) m c today =
        true :=
      (was_sent_today_iff _ m c today).mpr ⟨SentRecord.mk m c today, hmem, rfl, rfl, rfl⟩
    have h3 : mark_as_sent (ledger ++ [SentRecord.mk m c today]) m c today =
        ledger ++ [SentRecord.mk m c today] :=
      mark_as_sent_of_present _ m c today
        ⟨SentRecord.mk m c today, hmem, by simp [samePair]⟩
    have hz : ledger.countP (fun r => samePair r m c && r.sent_date == today) = 0 := by
      rw [List.countP_eq_zero]
      intro r hr
      simp [h r hr]
    have h4 : (ledger ++ [SentRecord.mk m c today]).countP
        (fun r => samePair r m c && r.sent_date == today) = 1 := by
      rw [List.countP_append, hz]
      simp [List.countP_cons, samePair]
    rw [h1, h3]
    exact ⟨rfl, h2, rfl, h4, h2⟩
  · intro h
    exact mark_as_sent_of_present ledger m c today h

/-- Witness for `C1_mark_sent_insert_or_ignore` at the empty ledger. -/
theorem C1_mark_sent_insert_or_ignore_witness :
    mark_as_sent ([] : List SentRecord) "m" "c" 5 = [⟨"m", "c", 5⟩] ∧
    was_sent_today (mark_as_sent ([] : List SentRecord) "m" "c" 5) "m" "c" 5 = true ∧
    mark_as_sent (mark_as_sent ([] : List SentRecord) "m" "c" 5) "m" "c" 5 =
      [⟨"m", "c", 5⟩] := by
  have h := (C1_mark_sent_insert_or_ignore [] "m" "c" 5).1 (by intro r hr; cases hr)
  exact ⟨h.1, h.2.1, h.2.2.1⟩

/-- C2: the `sent_videos` store keeps at most one record per
(message_id, channel_id) pair across all dates — the table's primary
key omits `sent_date` — and once a pair is recorded on some day, a
later-day `mark_as_sent` for the same pair inserts nothing, so the
stored `sent_date` remains the original day. -/
theorem C2_pair_unique_invariant (ledger : List SentRecord) (m c : String)
    (today : Nat)
    (hinv : ∀ m' c', ledger.countP (fun r => samePair r m' c') ≤ 1) :
    (∀ m' c', (mark_as_sent ledger m c today).countP
      (fun r => samePair r m' c') ≤ 1) ∧
    (∀ d, (⟨m, c, d⟩ : SentRecord) ∈ ledger →
      mark_as_sent ledger m c today = ledger) := by
  constructor
  · intro m' c'
    unfold mark_as_sent
    split
    · exact hinv m' c'
    · rename_i hany
      have hall : ∀ r ∈ ledger, samePair r m c = false := by
        intro r hr
        by_contra hcon
        simp only [Bool.not_eq_false] at hcon
        exact hany (List.any_eq_true.mpr ⟨r, hr, hcon⟩)
      rw [List.countP_append]
      by_cases hpair : m' = m ∧ c' = c
      · obtain ⟨rfl, rfl⟩ := hpair
        have hz : ledger.countP (fun r => samePair r m' c') = 0 :=
          List.countP_eq_zero.mpr (by intro r hr; simp [hall r hr])
        rw [hz]
        simpa using List.countP_le_length
          (p := fun r => samePair r m' c') (l := [SentRecord.mk m' c' today])
      · have hmatch : samePair (SentRecord.mk m c today) m' c' = false := by
          rw [Bool.eq_false_iff]
          intro hcon
          obtain ⟨h1, h2⟩ := (samePair_iff _ m' c').mp hcon
          exact hpair ⟨h1.symm, h2.symm⟩
        have hone : List.countP (fun r => samePair r m' c')
            [SentRecord.mk m c today] = 0 := by
          simp [List.countP_cons, hmatch]
        rw [hone]
        simpa using hinv m' c'
  · intro d hd
    exact mark_as_sent_of_present ledger m c today
      ⟨SentRecord.mk m c d, hd, by simp [samePair]⟩

/-- Witness for `C2_pair_unique_invariant`: a pair recorded on day 3 is
untouched by a day-7 mark, and uniqueness survives. -/
theorem C2_pair_unique_invariant_witness :
    mark_as_sent [⟨"x", "y", 3⟩] "x" "y" 7 = [⟨"x", "y", 3⟩] ∧
    (mark_as_sent [⟨"x", "y", 3⟩] "x" "y" 7).countP
      (fun r => samePair r "x" "y") ≤ 1 := by
  have h := C2_pair_unique_invariant [⟨"x", "y", 3⟩] "x" "y" 7
    (by
      intro m' c'
      simpa using List.countP_le_length (l := [(⟨"x", "y", 3⟩ : SentRecord)])
        (p := fun r => samePair r m' c'))
  exact ⟨h.2 3 (by simp), h.1 "x" "y"⟩

/-- C8: `was_sent_today` is true iff a record for the pair with
`sent_date` equal to the current day exists; in particular a ledger
whose records for the pair are all dated another day (e.g. yesterday)
never makes it true today. -/
theorem C8_was_sent_today_semantics (ledger : List SentRecord) (m c : String)
    (today : Nat) :
    (was_sent_today ledger m c today = true ↔
      ∃ r ∈ ledger, r.message_id = m ∧ r.channel_id = c ∧ r.sent_date = today) ∧
    ((∀ r ∈ ledger, r.sent_date ≠ today) →
      was_sent_today ledger m c today = false) := by
  refine ⟨was_sent_today_iff ledger m c today, ?_⟩
  intro h
  by_contra hcontra
  simp only [Bool.not_eq_false] at hcontra
  obtain ⟨r, hr, -, -, hdate⟩ := (was_sent_today_iff ledger m c today).mp hcontra
  exact h r hr hdate

/-- Witness for `C8_was_sent_today_semantics`: a record marked on day 4
does not satisfy `was_sent_today` on day 5. -/
theorem C8_was_sent_today_semantics_witness :
    was_sent_today [⟨"m", "c", 4⟩] "m" "c" 5 = false := by
  exact (C8_was_sent_today_semantics [⟨"m", "c", 4⟩] "m" "c" 5).2
    (by intro r hr; simp at hr; subst hr; decide)

theorem scanChannel_stops_before_cutoff (ledger : List SentRecord) (cutoff : Int)
    (minD today : Nat) (cid : String) (pre : List Msg) (m : Msg) (post : List Msg)
    (hpre : ∀ x ∈ pre, ¬ x.date < cutoff) (hm : m.date < cutoff) :
    scanChannel ledger cutoff minD today cid (pre ++ m :: post) =
      scanChannel ledger cutoff minD today cid pre := by
  induction pre with
  | nil => simp [scanChannel, hm]
  | cons a pre ih =>
    have ha : ¬ a.date < cutoff := hpre a (List.mem_cons_self a pre)
    have ih' := ih (fun x hx => hpre x (List.mem_cons_of_mem a hx))
    simp only [List.cons_append, scanChannel, if_neg ha, List.append_eq, ih']

theorem scanChannel_all_qualify (ledger : List SentRecord) (cutoff : Int)
    (minD today : Nat) (cid : String) (ms : List Msg) :
    ∀ m ∈ scanChannel ledger cutoff minD today cid ms, qualifies minD m = true := by
  induction ms with
  | nil => intro m hm; cases hm
  | cons a rest ih =>
    intro m hm
    simp only [scanChannel] at hm
    split at hm
    · cases hm
    · split at hm
      · exact ih m hm
      · split at hm
        · exact ih m hm
        · rcases List.mem_cons.mp hm with h | h
          · subst h
            rename_i hq _
            simpa using hq
          · exact ih m h

theorem scanChannel_subset (ledger : List SentRecord) (cutoff : Int)
    (minD today : Nat) (cid : String) (ms : List Msg) :
    ∀ m ∈ scanChannel ledger cutoff minD today cid ms, m ∈ ms := by
  induction ms with
  | nil => intro m hm; cases hm
  | cons a rest ih =>
    intro m hm
    simp only [scanChannel] at hm
    split at hm
    · cases hm
    · split at hm
      · exact List.mem_cons_of_mem a (ih m hm)
      · split at hm
        · exact List.mem_cons_of_mem a (ih m hm)
        · rcases List.mem_cons.mp hm with h | h
          · rw [h]; exact List.mem_cons_self _ rest
          · exact List.mem_cons_of_mem a (ih m h)

/-- C3 (counterexample): a qualifying, unsent message timestamped
exactly at `now − lookback_hours` (here `now = 86400` seconds, so the
cutoff is 0) is NOT excluded — `msg_time < cutoff` fails on equality,
so the scan keeps it as a candidate. The claim says it is excluded. -/
theorem C3_counterexample :
    scanChannel [] ((86400 : Int) - (LOOKBACK_HOURS : Int) * 3600) 60 0 "c"
        [⟨"1", (86400 : Int) - (LOOKBACK_HOURS : Int) * 3600, some ⟨some 60⟩, some 5⟩] =
      [⟨"1", (86400 : Int) - (LOOKBACK_HOURS : Int) * 3600, some ⟨some 60⟩, some 5⟩] := by
  decide

/-- C3 (amended): a message timestamped exactly at `now −
lookback_hours` is INCLUDED in candidacy (the scan's cutoff is an
inclusive lower bound, since only `msg_time < cutoff` stops it), and
scanning of a channel stops at the first message whose timestamp falls
strictly before the cutoff, discarding it and everything after it. -/
theorem C3_lookback_boundary (ledger : List SentRecord) (cutoff : Int)
    (minD today : Nat) (cid : String) :
    (∀ (pre post : List Msg) (m : Msg), (∀ x ∈ pre, ¬ x.date < cutoff) →
      m.date < cutoff →
      scanChannel ledger cutoff minD today cid (pre ++ m :: post) =
        scanChannel ledger cutoff minD today cid pre) ∧
    (∀ (m : Msg) (rest : List Msg), m.date = cutoff → qualifies minD m = true →
      was_sent_today ledger m.id cid today = false →
      scanChannel ledger cutoff minD today cid (m :: rest) =
        m :: scanChannel ledger cutoff minD today cid rest) := by
  constructor
  · intro pre post m hpre hm
    exact scanChannel_stops_before_cutoff ledger cutoff minD today cid pre m post hpre hm
  · intro m rest hdate hq hsent
    have hnotlt : ¬ m.date < cutoff := by rw [hdate]; exact lt_irrefl cutoff
    simp [scanChannel, if_neg hnotlt, hq, hsent]

/-- Witness for `C3_lookback_boundary`: the scan of `[at-cutoff msg,
before-cutoff msg]` keeps the first and stops at the second. -/
theorem C3_lookback_boundary_witness :
    scanChannel [] (0 : Int) 60 0 "c"
        [⟨"2", -1, some ⟨some 90⟩, none⟩] = [] ∧
    scanChannel [] (0 : Int) 60 0 "c"
        [⟨"1", 0, some ⟨some 60⟩, some 5⟩, ⟨"2", -1, some ⟨some 90⟩, none⟩] =
      ⟨"1", 0, some ⟨some 60⟩, some 5⟩ ::
        scanChannel [] (0 : Int) 60 0 "c" [⟨"2", -1, some ⟨some 90⟩, none⟩] := by
  constructor
  · exact (C3_lookback_boundary [] 0 60 0 "c").1 [] [] ⟨"2", -1, some ⟨some 90⟩, none⟩
      (by intro x hx; cases hx) (by decide)
  · exact (C3_lookback_boundary [] 0 60 0 "c").2 ⟨"1", 0, some ⟨some 60⟩, some 5⟩
      [⟨"2", -1, some ⟨some 90⟩, none⟩] (by decide) (by decide) (by decide)

/-- C4 (counterexample): one channel, two qualifying candidates; every
publish succeeds but marking fails for message "2" (the higher-viewed,
dispatched first). The run copies both messages to the target, yet
`total_sent` is 1, not 2 — the claim says the mark-failed item is still
counted in `items_sent`, but the counter increment sits after the
`mark_as_sent` call inside the same `try`, so the exception skips it. -/
theorem C4_counterexample :
    (daily_job
        (fun _ => Fetch.ok [⟨"1", 5, some ⟨some 300⟩, some 7⟩,
                            ⟨"2", 4, some ⟨some 300⟩, some 9⟩])
        (fun _ _ => true) (fun _ mid => mid == "1") 86400 0 0
        [("c", "name")] []).2.total_sent = 1 ∧
    (daily_job
        (fun _ => Fetch.ok [⟨"1", 5, some ⟨some 300⟩, some 7⟩,
                            ⟨"2", 4, some ⟨some 300⟩, some 9⟩])
        (fun _ _ => true) (fun _ mid => mid == "1") 86400 0 0
        [("c", "name")] []).2.published =
      [("c", ⟨"2", 4, some ⟨some 300⟩, some 9⟩),
       ("c", ⟨"1", 5, some ⟨some 300⟩, some 7⟩)] := by
  decide

/-- C4 (amended): when the publish of a selected item succeeds but the
subsequent `mark_as_sent` raises, the per-item handler catches it: the
copy has gone out (the item joins the published list) but `total_sent`
is NOT incremented and the ledger is unchanged, and dispatch proceeds
to the next selected item. -/
theorem C4_mark_failure_not_counted (pubOk markOk : String → String → Bool)
    (cid : String) (today : Nat) (st : RunState) (m : Msg) (rest : List Msg)
    (hp : pubOk cid m.id = true) (hm : markOk cid m.id = false) :
    (dispatchItem pubOk markOk cid today st m).total_sent = st.total_sent ∧
    (dispatchItem pubOk markOk cid today st m).published =
      st.published ++ [(cid, m)] ∧
    (dispatchItem pubOk markOk cid today st m).ledger = st.ledger ∧
    (m :: rest).foldl (dispatchItem pubOk markOk cid today) st =
      rest.foldl (dispatchItem pubOk markOk cid today)
        (dispatchItem pubOk markOk cid today st m) := by
  refine ⟨?_, ?_, ?_, rfl⟩ <;> simp [dispatchItem, hp, hm]

/-- Witness for `C4_mark_failure_not_counted` on the empty run state. -/
theorem C4_mark_failure_not_counted_witness :
    (dispatchItem (fun _ _ => true) (fun _ _ => false) "c" 0 (initState [])
      ⟨"1", 5, some ⟨some 300⟩, some 7⟩).total_sent = 0 ∧
    (dispatchItem (fun _ _ => true) (fun _ _ => false) "c" 0 (initState [])
      ⟨"1", 5, some ⟨some 300⟩, some 7⟩).published =
      [("c", ⟨"1", 5, some ⟨some 300⟩, some 7⟩)] := by
  have h := C4_mark_failure_not_counted (fun _ _ => true) (fun _ _ => false) "c" 0
    (initState []) ⟨"1", 5, some ⟨some 300⟩, some 7⟩ [] rfl rfl
  exact ⟨h.1, h.2.1⟩

theorem dispatchItem_errors_arg (pubOk markOk : String → String → Bool)
    (cid : String) (today : Nat) (st : RunState) (m : Msg) (es : List String) :
    dispatchItem pubOk markOk cid today { st with scan_errors := es } m =
      { dispatchItem pubOk markOk cid today st m with scan_errors := es } := by
  by_cases hp : pubOk cid m.id = true <;> by_cases hmk : markOk cid m.id = true <;>
    simp [dispatchItem, hp, hmk]

theorem dispatchFold_errors_arg (pubOk markOk : String → String → Bool)
    (cid : String) (today : Nat) (top : List Msg) (st : RunState) (es : List String) :
    top.foldl (dispatchItem pubOk markOk cid today) { st with scan_errors := es } =
      { top.foldl (dispatchItem pubOk markOk cid today) st with scan_errors := es } := by
  induction top generalizing st with
  | nil => rfl
  | cons m rest ih =>
    simp only [List.foldl_cons, dispatchItem_errors_arg]
    exact ih _

theorem dispatchItem_scan_errors (pubOk markOk : String → String → Bool)
    (cid : String) (today : Nat) (st : RunState) (m : Msg) :
    (dispatchItem pubOk markOk cid today st m).scan_errors = st.scan_errors := by
  by_cases hp : pubOk cid m.id = true <;> by_cases hmk : markOk cid m.id = true <;>
    simp [dispatchItem, hp, hmk]

theorem dispatchFold_scan_errors (pubOk markOk : String → String → Bool)
    (cid : String) (today : Nat) (top : List Msg) (st : RunState) :
    (top.foldl (dispatchItem pubOk markOk cid today) st).scan_errors =
      st.scan_errors := by
  induction top generalizing st with
  | nil => rfl
  | cons m rest ih =>
    simp only [List.foldl_cons]
    rw [ih, dispatchItem_scan_errors]

theorem processChannel_scan_errors (pubOk markOk : String → String → Bool)
    (cutoff : Int) (minD today : Nat) (st : RunState) (ch : String × String)
    (f : Fetch) :
    (processChannel pubOk markOk cutoff minD today st ch f).scan_errors =
      st.scan_errors ++ fetchErrors ch f := by
  cases f with
  | fail e => rfl
  | ok history =>
    simp only [processChannel, fetchErrors, List.append_nil]
    split
    · rfl
    · exact dispatchFold_scan_errors pubOk markOk ch.1 today _ st

theorem processChannel_errors_arg (pubOk markOk : String → String → Bool)
    (cutoff : Int) (minD today : Nat) (st : RunState) (ch : String × String)
    (f : Fetch) (es : List String) :
    processChannel pubOk markOk cutoff minD today { st with scan_errors := es } ch f =
      { processChannel pubOk markOk cutoff minD today st ch f with
        scan_errors := es ++ fetchErrors ch f } := by
  cases f with
  | fail e => rfl
  | ok history =>
    simp only [processChannel, fetchErrors, List.append_nil]
    split
    · rfl
    · exact dispatchFold_errors_arg pubOk markOk ch.1 today _ st es

theorem runFold_scan_errors (fetch : String → Fetch)
    (pubOk markOk : String → String → Bool) (cutoff : Int) (minD today : Nat)
    (channels : List (String × String)) (st0 : RunState) :
    (runFold fetch pubOk markOk cutoff minD today channels st0).scan_errors =
      st0.scan_errors ++
        (channels.map (fun ch => fetchErrors ch (fetch ch.1))).flatten := by
  induction channels generalizing st0 with
  | nil => simp [runFold]
  | cons ch rest ih =>
    simp only [runFold, List.foldl_cons, List.map_cons, List.flatten]
    rw [show List.foldl _ _ rest = runFold fetch pubOk markOk cutoff minD today rest
        (processChannel pubOk markOk cutoff minD today st0 ch (fetch ch.1)) from rfl]
    rw [ih, processChannel_scan_errors]
    simp [List.append_assoc]

theorem runFold_errors_arg (fetch : String → Fetch)
    (pubOk markOk : String → String → Bool) (cutoff : Int) (minD today : Nat)
    (channels : List (String × String)) (st : RunState) (es : List String) :
    runFold fetch pubOk markOk cutoff minD today channels
        { st with scan_errors := es } =
      { runFold fetch pubOk markOk cutoff minD today channels st with
        scan_errors :=
          es ++ (channels.map (fun ch => fetchErrors ch (fetch ch.1))).flatten } := by
  induction channels generalizing st es with
  | nil => simp [runFold]
  | cons ch rest ih =>
    simp only [runFold, List.foldl_cons] at ih ⊢
    rw [processChannel_errors_arg, ih]
    simp [List.map_cons, List.flatten, List.append_assoc]

/-- C9: a fetch failure for one channel is caught and recorded as a
per-channel error string, and the run carries on: with the failing
channel removed from the configuration, the published list, the sent
counter and the ledger of the run are identical, so every other
channel's qualifying candidates stay eligible and no single channel's
failure aborts the run. -/
theorem C9_partial_failure_isolation (fetch : String → Fetch)
    (pubOk markOk : String → String → Bool) (cutoff : Int) (minD today : Nat)
    (ledger0 : List SentRecord) (pre post : List (String × String))
    (X : String × String) (e : String) (hfail : fetch X.1 = Fetch.fail e) :
    (X.2 ++ ": " ++ e) ∈
      (runFold fetch pubOk markOk cutoff minD today (pre ++ X :: post)
        (initState ledger0)).scan_errors ∧
    (runFold fetch pubOk markOk cutoff minD today (pre ++ X :: post)
        (initState ledger0)).published =
      (runFold fetch pubOk markOk cutoff minD today (pre ++ post)
        (initState ledger0)).published ∧
    (runFold fetch pubOk markOk cutoff minD today (pre ++ X :: post)
        (initState ledger0)).total_sent =
      (runFold fetch pubOk markOk cutoff minD today (pre ++ post)
        (initState ledger0)).total_sent ∧
    (runFold fetch pubOk markOk cutoff minD today (pre ++ X :: post)
        (initState ledger0)).ledger =
      (runFold fetch pubOk markOk cutoff minD today (pre ++ post)
        (initState ledger0)).ledger := by
  have h1 : runFold fetch pubOk markOk cutoff minD today (pre ++ X :: post)
      (initState ledger0) =
      runFold fetch pubOk markOk cutoff minD today post
        (processChannel pubOk markOk cutoff minD today
          (runFold fetch pubOk markOk cutoff minD today pre (initState ledger0))
          X (fetch X.1)) := by
    simp [runFold, List.foldl_append]
  have h2 : processChannel pubOk markOk cutoff minD today
      (runFold fetch pubOk markOk cutoff minD today pre (initState ledger0))
      X (fetch X.1) =
      { runFold fetch pubOk markOk cutoff minD today pre (initState ledger0) with
        scan_errors :=
          (runFold fetch pubOk markOk cutoff minD today pre
            (initState ledger0)).scan_errors ++ [X.2 ++ ": " ++ e] } := by
    rw [hfail]; rfl
  have h4 : runFold fetch pubOk markOk cutoff minD today (pre ++ post)
      (initState ledger0) =
      runFold fetch pubOk markOk cutoff minD today post
        (runFold fetch pubOk markOk cutoff minD today pre (initState ledger0)) := by
    simp [runFold, List.foldl_append]
  refine ⟨?_, ?_, ?_, ?_⟩
  · rw [runFold_scan_errors]
    have herr : (X.2 ++ ": " ++ e) ∈
        ((pre ++ X :: post).map (fun ch => fetchErrors ch (fetch ch.1))).flatten := by
      rw [List.mem_flatten]
      refine ⟨fetchErrors X (fetch X.1), List.mem_map_of_mem _ (by simp), ?_⟩
      rw [hfail]; simp [fetchErrors]
    simpa [initState] using herr
  all_goals
    rw [h1, h2, runFold_errors_arg, h4]

/-- Witness for `C9_partial_failure_isolation`: channel "bad" raises
"boom", channel "g" still publishes. -/
theorem C9_partial_failure_isolation_witness :
    ("Bad" ++ ": " ++ "boom") ∈
      (runFold
        (fun cid => if cid == "bad" then Fetch.fail "boom"
          else Fetch.ok [⟨"1", 5, some ⟨some 300⟩, some 7⟩])
        (fun _ _ => true) (fun _ _ => true) 0 0 0
        [("g", "Good"), ("bad", "Bad")] (initState [])).scan_errors ∧
    (runFold
        (fun cid => if cid == "bad" then Fetch.fail "boom"
          else Fetch.ok [⟨"1", 5, some ⟨some 300⟩, some 7⟩])
        (fun _ _ => true) (fun _ _ => true) 0 0 0
        [("g", "Good"), ("bad", "Bad")] (initState [])).published =
      (runFold
        (fun cid => if cid == "bad" then Fetch.fail "boom"
          else Fetch.ok [⟨"1", 5, some ⟨some 300⟩, some 7⟩])
        (fun _ _ => true) (fun _ _ => true) 0 0 0
        [("g", "Good")] (initState [])).published := by
  have h := C9_partial_failure_isolation
    (fun cid => if cid == "bad" then Fetch.fail "boom"
      else Fetch.ok [⟨"1", 5, some ⟨some 300⟩, some 7⟩])
    (fun _ _ => true) (fun _ _ => true) 0 0 0 []
    [("g", "Good")] [] ("bad", "Bad") "boom" rfl
  exact ⟨h.1, h.2.1⟩

theorem daily_job_state (fetch : String → Fetch)
    (pubOk markOk : String → String → Bool) (now : Int) (today minD : Nat)
    (channels : List (String × String)) (ledger0 : List SentRecord)
    (h : channels ≠ []) :
    (daily_job fetch pubOk markOk now today minD channels ledger0).2 =
      runFold fetch pubOk markOk (now - (LOOKBACK_HOURS : Int) * 3600) minD today
        channels (initState ledger0) := by
  simp only [daily_job]
  rw [if_neg (by simpa [List.isEmpty_iff] using h)]
  split
  · split <;> rfl
  · rfl

/-- C10: three distinguishable zero-sent outcomes. An empty channel
list yields the no-channels report; a zero-sent run with at least one
per-channel scan error yields the scan-errors report; a zero-sent run
whose channels all scanned cleanly yields the no-qualifying-videos
report. A scan error is recorded iff some configured channel's fetch
raised, and the three report shapes are pairwise distinct. -/
theorem C10_report_distinction (fetch : String → Fetch)
    (pubOk markOk : String → String → Bool) (now : Int) (today minD : Nat)
    (channels : List (String × String)) (ledger0 : List SentRecord) :
    (channels = [] →
      (daily_job fetch pubOk markOk now today minD channels ledger0).1 =
        Report.noChannels) ∧
    (channels ≠ [] →
      (daily_job fetch pubOk markOk now today minD channels ledger0).2.total_sent = 0 →
      (daily_job fetch pubOk markOk now today minD channels ledger0).2.scan_errors ≠ [] →
      (daily_job fetch pubOk markOk now today minD channels ledger0).1 =
        Report.scanErrorsReport
          (daily_job fetch pubOk markOk now today minD channels ledger0).2.scan_errors
          channels.length) ∧
    (channels ≠ [] →
      (daily_job fetch pubOk markOk now today minD channels ledger0).2.total_sent = 0 →
      (daily_job fetch pubOk markOk now today minD channels ledger0).2.scan_errors = [] →
      (daily_job fetch pubOk markOk now today minD channels ledger0).1 =
        Report.noQualifying minD channels.length) ∧
    ((daily_job fetch pubOk markOk now today minD channels ledger0).2.scan_errors ≠ []
      ↔ ∃ ch ∈ channels, ∃ e, fetch ch.1 = Fetch.fail e) ∧
    (∀ (errs : List String) (a b c : Nat),
      Report.noChannels ≠ Report.scanErrorsReport errs a ∧
      Report.noChannels ≠ Report.noQualifying b c ∧
      Report.scanErrorsReport errs a ≠ Report.noQualifying b c) := by
  refine ⟨?_, ?_, ?_, ?_, ?_⟩
  · intro h; subst h; rfl
  · intro hne hts hse
    rw [daily_job_state fetch pubOk markOk now today minD channels ledger0 hne]
      at hts hse ⊢
    simp only [daily_job]
    rw [if_neg (by simpa [List.isEmpty_iff] using hne)]
    simp [hts, hse, List.isEmpty_iff]
  · intro hne hts hse
    rw [daily_job_state fetch pubOk markOk now today minD channels ledger0 hne]
      at hts hse
    simp only [daily_job]
    rw [if_neg (by simpa [List.isEmpty_iff] using hne)]
    simp [hts, hse, List.isEmpty_iff]
  · by_cases hch : channels = []
    · subst hch
      simp [daily_job, initState]
    · rw [daily_job_state fetch pubOk markOk now today minD channels ledger0 hch,
        runFold_scan_errors]
      simp only [initState, List.nil_append, Ne]
      rw [List.flatten_eq_nil_iff]
      constructor
      · intro h
        have h' : ∃ l ∈ channels.map (fun ch => fetchErrors ch (fetch ch.1)),
            l ≠ [] := by
          by_contra hcon
          push_neg at hcon
          exact h hcon
        obtain ⟨l, hl, hlne⟩ := h'
        obtain ⟨ch, hchmem, rfl⟩ := List.mem_map.mp hl
        cases hf : fetch ch.1 with
        | ok his => rw [hf] at hlne; simp [fetchErrors] at hlne
        | fail e => exact ⟨ch, hchmem, e, hf⟩
      · rintro ⟨ch, hchmem, e, hf⟩ hall
        have := hall (fetchErrors ch (fetch ch.1)) (List.mem_map_of_mem _ hchmem)
        rw [hf] at this
        simp [fetchErrors] at this
  · intro errs a b c
    exact ⟨fun h => Report.noConfusion h, fun h => Report.noConfusion h,
      fun h => Report.noConfusion h⟩

/-- Witness for `C10_report_distinction`: the three zero-sent scenarios
at concrete inputs — no channels; one erroring channel; one clean
channel with no qualifying video. -/
theorem C10_report_distinction_witness :
    (daily_job (fun _ => Fetch.ok []) (fun _ _ => true) (fun _ _ => true)
      86400 0 300 [] []).1 = Report.noChannels ∧
    (daily_job (fun _ => Fetch.fail "boom") (fun _ _ => true) (fun _ _ => true)
      86400 0 300 [("c", "name")] []).1 =
      Report.scanErrorsReport ["name" ++ ": " ++ "boom"] 1 ∧
    (daily_job (fun _ => Fetch.ok []) (fun _ _ => true) (fun _ _ => true)
      86400 0 300 [("c", "name")] []).1 = Report.noQualifying 300 1 := by
  refine ⟨?_, ?_, ?_⟩
  · exact (C10_report_distinction (fun _ => Fetch.ok []) (fun _ _ => true)
      (fun _ _ => true) 86400 0 300 [] []).1 rfl
  · have h := (C10_report_distinction (fun _ => Fetch.fail "boom") (fun _ _ => true)
      (fun _ _ => true) 86400 0 300 [("c", "name")] []).2.1
      (by decide) (by decide) (by decide)
    simpa using h
  · exact (C10_report_distinction (fun _ => Fetch.ok []) (fun _ _ => true)
      (fun _ _ => true) 86400 0 300 [("c", "name")] []).2.2.1
      (by decide) (by decide) (by decide)

theorem qualifies_iff (minD : Nat) (m : Msg) :
    qualifies minD m = true ↔ m.video.isSome ∧ minD ≤ durOr0 m := by
  cases hv : m.video with
  | none => simp [qualifies, hv]
  | some v => simp [qualifies, hv, durOr0, Nat.not_lt]

theorem topPerChannel_subset (cs : List Msg) : ∀ m ∈ topPerChannel cs, m ∈ cs := by
  intro m hm
  have h1 : m ∈ cs.insertionSort viewsDescRel :=
    (List.take_sublist _ _).subset hm
  exact (List.mem_insertionSort viewsDescRel).mp h1

theorem dispatchItem_published_mem (pubOk markOk : String → String → Bool)
    (cid : String) (today : Nat) (st : RunState) (m : Msg) :
    ∀ p ∈ (dispatchItem pubOk markOk cid today st m).published,
      p ∈ st.published ∨ (p.1 = cid ∧ p.2 = m) := by
  intro p hp
  unfold dispatchItem at hp
  split at hp
  · split at hp
    · simp at hp
      rcases hp with h | h
      · exact Or.inl h
      · right; rw [h]; exact ⟨rfl, rfl⟩
    · simp at hp
      rcases hp with h | h
      · exact Or.inl h
      · right; rw [h]; exact ⟨rfl, rfl⟩
  · exact Or.inl hp

theorem dispatchFold_published_mem (pubOk markOk : String → String → Bool)
    (cid : String) (today : Nat) (top : List Msg) (st : RunState) :
    ∀ p ∈ (top.foldl (dispatchItem pubOk markOk cid today) st).published,
      p ∈ st.published ∨ (p.1 = cid ∧ p.2 ∈ top) := by
  induction top generalizing st with
  | nil => intro p hp; exact Or.inl hp
  | cons m rest ih =>
    intro p hp
    rw [List.foldl_cons] at hp
    rcases ih _ p hp with h | ⟨h1, h2⟩
    · rcases dispatchItem_published_mem pubOk markOk cid today st m p h with
        h' | ⟨h1, h2⟩
      · exact Or.inl h'
      · exact Or.inr ⟨h1, by rw [h2]; exact List.mem_cons_self m rest⟩
    · exact Or.inr ⟨h1, List.mem_cons_of_mem m h2⟩

theorem processChannel_published_mem (pubOk markOk : String → String → Bool)
    (cutoff : Int) (minD today : Nat) (st : RunState) (ch : String × String)
    (f : Fetch) :
    ∀ p ∈ (processChannel pubOk markOk cutoff minD today st ch f).published,
      p ∈ st.published ∨ (p.1 = ch.1 ∧ qualifies minD p.2 = true) := by
  intro p hp
  cases f with
  | fail e => exact Or.inl hp
  | ok history =>
    simp only [processChannel] at hp
    split at hp
    · exact Or.inl hp
    · rcases dispatchFold_published_mem pubOk markOk ch.1 today _ st p hp with
        h | ⟨h1, h2⟩
      · exact Or.inl h
      · refine Or.inr ⟨h1, ?_⟩
        have hc := topPerChannel_subset _ p.2 h2
        exact scanChannel_all_qualify st.ledger cutoff minD today ch.1 _ p.2 hc

theorem runFold_published_mem (fetch : String → Fetch)
    (pubOk markOk : String → String → Bool) (cutoff : Int) (minD today : Nat)
    (channels : List (String × String)) (st0 : RunState) :
    ∀ p ∈ (runFold fetch pubOk markOk cutoff minD today channels st0).published,
      p ∈ st0.published ∨ qualifies minD p.2 = true := by
  induction channels generalizing st0 with
  | nil => intro p hp; exact Or.inl hp
  | cons ch rest ih =>
    intro p hp
    simp only [runFold, List.foldl_cons] at hp
    rcases ih _ p hp with h | h
    · rcases processChannel_published_mem pubOk markOk cutoff minD today st0 ch
        (fetch ch.1) p h with h' | ⟨_, hq⟩
      · exact Or.inl h'
      · exact Or.inr hq
    · exact Or.inr h

/-- C6: the duration filter is a pipeline invariant — every message a
run publishes carries a video whose duration (missing read as 0) is at
least `min_duration`; a video of duration exactly `min_duration` passes
the filter (the boundary is selectable); a message whose video has
unknown duration counts as duration 0 and is filtered whenever
`min_duration > 0`. -/
theorem C6_duration_filter (fetch : String → Fetch)
    (pubOk markOk : String → String → Bool) (now : Int) (today minD : Nat)
    (channels : List (String × String)) (ledger0 : List SentRecord) :
    (∀ p ∈ (daily_job fetch pubOk markOk now today minD channels ledger0).2.published,
      qualifies minD p.2 = true ∧ minD ≤ durOr0 p.2) ∧
    (∀ m : Msg, m.video.isSome → durOr0 m = minD → qualifies minD m = true) ∧
    (0 < minD → ∀ m : Msg,
      (m.video = none ∨ ∃ v, m.video = some v ∧ v.duration = none) →
      qualifies minD m = false) := by
  refine ⟨?_, ?_, ?_⟩
  · intro p hp
    have hq : qualifies minD p.2 = true := by
      by_cases hch : channels = []
      · subst hch
        simp [daily_job, initState] at hp
      · rw [daily_job_state fetch pubOk markOk now today minD channels ledger0 hch]
          at hp
        rcases runFold_published_mem fetch pubOk markOk _ minD today channels
          (initState ledger0) p hp with h | h
        · simp [initState] at h
        · exact h
    exact ⟨hq, ((qualifies_iff minD p.2).mp hq).2⟩
  · intro m hsome hdur
    exact (qualifies_iff minD m).mpr ⟨hsome, le_of_eq hdur.symm⟩
  · intro hpos m hnone
    rcases hnone with h | ⟨v, hv, hd⟩
    · simp [qualifies, h]
    · simp [qualifies, hv, hd, hpos]

/-- Witness for `C6_duration_filter`: a published 300-second video at
threshold 300, a filtered unknown-duration video, and the invariant
read off a concrete run. -/
theorem C6_duration_filter_witness :
    qualifies 300 ⟨"1", 5, some ⟨some 300⟩, some 7⟩ = true ∧
    qualifies 300 ⟨"2", 5, some ⟨none⟩, some 7⟩ = false ∧
    (300 : Nat) ≤ durOr0 ⟨"1", 5, some ⟨some 300⟩, some 7⟩ := by
  refine ⟨?_, ?_, ?_⟩
  · exact (C6_duration_filter (fun _ => Fetch.ok []) (fun _ _ => true)
      (fun _ _ => true) 0 0 300 [] []).2.1 ⟨"1", 5, some ⟨some 300⟩, some 7⟩
      (by decide) (by decide)
  · exact (C6_duration_filter (fun _ => Fetch.ok []) (fun _ _ => true)
      (fun _ _ => true) 0 0 300 [] []).2.2 (by decide) ⟨"2", 5, some ⟨none⟩, some 7⟩
      (Or.inr ⟨⟨none⟩, rfl, rfl⟩)
  · exact ((C6_duration_filter
      (fun _ => Fetch.ok [⟨"1", 5, some ⟨some 300⟩, some 7⟩]) (fun _ _ => true)
      (fun _ _ => true) 86400 0 300 [("c", "n")] []).1
      ("c", ⟨"1", 5, some ⟨some 300⟩, some 7⟩) (by decide)).2

theorem was_sent_today_append_other (ledger extra : List SentRecord) (m c : String)
    (today : Nat) (h : ∀ r ∈ extra, r.channel_id ≠ c) :
    was_sent_today (ledger ++ extra) m c today = was_sent_today ledger m c today := by
  simp only [was_sent_today, List.any_append]
  have hz : extra.any (fun r => samePair r m c && r.sent_date == today) = false := by
    rw [List.any_eq_false]
    intro r hr
    simp [samePair, h r hr]
  rw [hz, Bool.or_false]

theorem scanChannel_ledger_extend (ledger extra : List SentRecord) (cutoff : Int)
    (minD today : Nat) (cid : String) (ms : List Msg)
    (h : ∀ r ∈ extra, r.channel_id ≠ cid) :
    scanChannel (ledger ++ extra) cutoff minD today cid ms =
      scanChannel ledger cutoff minD today cid ms := by
  induction ms with
  | nil => rfl
  | cons m rest ih =>
    simp only [scanChannel,
      was_sent_today_append_other ledger extra m.id cid today h, ih]

theorem mark_as_sent_extends (l : List SentRecord) (m c : String) (t : Nat) :
    ∃ ex, mark_as_sent l m c t = l ++ ex ∧ ∀ r ∈ ex, r.channel_id = c := by
  unfold mark_as_sent
  split
  · exact ⟨[], by simp, by intro r hr; cases hr⟩
  · exact ⟨[SentRecord.mk m c t], rfl, by intro r hr; simp at hr; rw [hr]⟩

theorem dispatchFold_run (pubOk markOk : String → String → Bool) (cid : String)
    (today : Nat) (top : List Msg) (st : RunState)
    (hpub : ∀ c m, pubOk c m = true) :
    (top.foldl (dispatchItem pubOk markOk cid today) st).published =
      st.published ++ top.map (fun m => (cid, m)) ∧
    ∃ ex, (top.foldl (dispatchItem pubOk markOk cid today) st).ledger =
      st.ledger ++ ex ∧ ∀ r ∈ ex, r.channel_id = cid := by
  induction top generalizing st with
  | nil => exact ⟨by simp, [], by simp, by intro r hr; cases hr⟩
  | cons m rest ih =>
    rw [List.foldl_cons]
    by_cases hmk : markOk cid m.id = true
    · have hstep : dispatchItem pubOk markOk cid today st m =
          { st with ledger := mark_as_sent st.ledger m.id cid today,
                    total_sent := st.total_sent + 1,
                    published := st.published ++ [(cid, m)] } := by
        simp [dispatchItem, hpub, hmk]
      rw [hstep]
      obtain ⟨hpubeq, ex, hled, hex⟩ := ih _
      obtain ⟨ex0, hm0, hex0⟩ := mark_as_sent_extends st.ledger m.id cid today
      refine ⟨by rw [hpubeq]; simp [List.append_assoc], ex0 ++ ex, ?_, ?_⟩
      · rw [hled]
        simp [hm0, List.append_assoc]
      · intro r hr
        rcases List.mem_append.mp hr with h | h
        · exact hex0 r h
        · exact hex r h
    · have hstep : dispatchItem pubOk markOk cid today st m =
          { st with published := st.published ++ [(cid, m)] } := by
        simp [dispatchItem, hpub, hmk]
      rw [hstep]
      obtain ⟨hpubeq, ex, hled, hex⟩ := ih _
      exact ⟨by rw [hpubeq]; simp [List.append_assoc], ex, by rw [hled], hex⟩

theorem runFold_published_flatten (fetch : String → Fetch)
    (pubOk markOk : String → String → Bool) (cutoff : Int) (minD today : Nat)
    (ledger0 : List SentRecord) (hpub : ∀ c m, pubOk c m = true) :
    ∀ (channels : List (String × String)) (st0 : RunState)
      (extra : List SentRecord),
      st0.ledger = ledger0 ++ extra →
      (∀ r ∈ extra, r.channel_id ∉ channels.map Prod.fst) →
      (channels.map Prod.fst).Nodup →
      (runFold fetch pubOk markOk cutoff minD today channels st0).published =
        st0.published ++
          (channels.map (channelSel fetch ledger0 cutoff minD today)).flatten := by
  intro channels
  induction channels with
  | nil => intro st0 extra _ _ _; simp [runFold]
  | cons ch rest ih =>
    intro st0 extra hled hex hdist
    have hexhd : ∀ r ∈ extra, r.channel_id ≠ ch.1 := by
      intro r hr
      have := hex r hr
      simp only [List.map_cons, List.mem_cons, not_or] at this
      exact this.1
    have hextl : ∀ r ∈ extra, r.channel_id ∉ rest.map Prod.fst := by
      intro r hr
      have := hex r hr
      simp only [List.map_cons, List.mem_cons, not_or] at this
      exact this.2
    have hdtl : (rest.map Prod.fst).Nodup := by
      simp only [List.map_cons, List.nodup_cons] at hdist
      exact hdist.2
    have hdhd : ch.1 ∉ rest.map Prod.fst := by
      simp only [List.map_cons, List.nodup_cons] at hdist
      exact hdist.1
    simp only [runFold, List.foldl_cons, List.map_cons, List.flatten_cons]
    cases hf : fetch ch.1 with
    | fail e =>
      have hsel : channelSel fetch ledger0 cutoff minD today ch = [] := by
        simp [channelSel, channelCandidates, hf, topPerChannel, List.insertionSort]
      have hstep : processChannel pubOk markOk cutoff minD today st0 ch (Fetch.fail e) =
          { st0 with scan_errors := st0.scan_errors ++ [ch.2 ++ ": " ++ e] } := rfl
      rw [hstep]
      rw [show (List.foldl
          (fun st ch => processChannel pubOk markOk cutoff minD today st ch (fetch ch.1))
          { st0 with scan_errors := st0.scan_errors ++ [ch.2 ++ ": " ++ e] } rest) =
        runFold fetch pubOk markOk cutoff minD today rest
          { st0 with scan_errors := st0.scan_errors ++ [ch.2 ++ ": " ++ e] } from rfl]
      rw [ih { st0 with scan_errors := st0.scan_errors ++ [ch.2 ++ ": " ++ e] }
        extra hled hextl hdtl]
      simp [hsel]
    | ok history =>
      have hceq : scanChannel st0.ledger cutoff minD today ch.1
          (history.take SCAN_LIMIT) =
          channelCandidates fetch ledger0 cutoff minD today ch := by
        rw [hled, scanChannel_ledger_extend ledger0 extra cutoff minD today ch.1 _ hexhd]
        simp [channelCandidates, hf]
      by_cases hemp :
          (channelCandidates fetch ledger0 cutoff minD today ch).isEmpty = true
      · have hnil : channelCandidates fetch ledger0 cutoff minD today ch = [] :=
          List.isEmpty_iff.mp hemp
        have hsel : channelSel fetch ledger0 cutoff minD today ch = [] := by
          simp [channelSel, hnil, topPerChannel, List.insertionSort]
        have hstep : processChannel pubOk markOk cutoff minD today st0 ch
            (Fetch.ok history) = st0 := by
          simp only [processChannel]
          rw [hceq, if_pos hemp]
        rw [hstep]
        rw [show (List.foldl
            (fun st ch => processChannel pubOk markOk cutoff minD today st ch (fetch ch.1))
            st0 rest) =
          runFold fetch pubOk markOk cutoff minD today rest st0 from rfl]
        rw [ih st0 extra hled hextl hdtl]
        simp [hsel]
      · have hstep : processChannel pubOk markOk cutoff minD today st0 ch
            (Fetch.ok history) =
            (topPerChannel (channelCandidates fetch ledger0 cutoff minD today ch)).foldl
              (dispatchItem pubOk markOk ch.1 today) st0 := by
          simp only [processChannel]
          rw [hceq, if_neg (by simp [hemp])]
        obtain ⟨hpubeq, ex', hled', hex'⟩ := dispatchFold_run pubOk markOk ch.1 today
          (topPerChannel (channelCandidates fetch ledger0 cutoff minD today ch)) st0 hpub
        rw [hstep]
        rw [show (List.foldl
            (fun st ch => processChannel pubOk markOk cutoff minD today st ch (fetch ch.1))
            ((topPerChannel (channelCandidates fetch ledger0 cutoff minD today ch)).foldl
              (dispatchItem pubOk markOk ch.1 today) st0) rest) =
          runFold fetch pubOk markOk cutoff minD today rest
            ((topPerChannel (channelCandidates fetch ledger0 cutoff minD today ch)).foldl
              (dispatchItem pubOk markOk ch.1 today) st0) from rfl]
        have hex'' : ∀ r ∈ extra ++ ex', r.channel_id ∉ rest.map Prod.fst := by
          intro r hr
          rcases List.mem_append.mp hr with h | h
          · exact hextl r h
          · rw [hex' r h]
            exact hdhd
        rw [ih ((topPerChannel
            (channelCandidates fetch ledger0 cutoff minD today ch)).foldl
            (dispatchItem pubOk markOk ch.1 today) st0) (extra ++ ex')
          (by rw [hled', hled, List.append_assoc]) hex'' hdtl]
        rw [hpubeq]
        simp [channelSel, List.append_assoc]

theorem topPerChannel_length (cs : List Msg) :
    (topPerChannel cs).length = min VIDEOS_PER_CHANNEL cs.length := by
  simp [topPerChannel, List.length_take, List.length_insertionSort]

theorem topPerChannel_sorted (cs : List Msg) :
    (topPerChannel cs).Pairwise viewsDescRel :=
  List.Pairwise.sublist (List.take_sublist _ _)
    (List.sorted_insertionSort viewsDescRel cs)

theorem topPerChannel_maximal (cs : List Msg) :
    ∀ y ∈ cs, y ∉ topPerChannel cs →
      ∀ x ∈ topPerChannel cs, viewsOr0 y ≤ viewsOr0 x := by
  intro y hy hnot x hx
  have hsorted := List.sorted_insertionSort viewsDescRel cs
  have hy' : y ∈ cs.insertionSort viewsDescRel :=
    (List.mem_insertionSort viewsDescRel).mpr hy
  have hsplit :=
    List.take_append_drop VIDEOS_PER_CHANNEL (cs.insertionSort viewsDescRel)
  rw [← hsplit] at hy' hsorted
  rcases List.mem_append.mp hy' with h | h
  · exact absurd h hnot
  · exact (List.pairwise_append.mp hsorted).2.2 x hx y h

theorem sort_stable_on_ties (cs : List Msg) (a b : Msg)
    (hab : viewsOr0 a = viewsOr0 b) (h : List.Sublist [a, b] cs) :
    List.Sublist [a, b] (cs.insertionSort viewsDescRel) :=
  List.pair_sublist_insertionSort (le_of_eq hab.symm) h

/-- C7: the per-channel top-N policy as implemented. For every
channel's candidate list, the selection is the up-to-3
(`VIDEOS_PER_CHANNEL`) candidates of highest view count, in descending
view order, the underlying sort keeping discovery order on ties
(stability), with a missing view count read as 0; and the full publish
list of a run (all publishes succeeding, channel ids distinct) is the
concatenation of the per-channel selections in channel-iteration
order. -/
theorem C7_per_channel_topN (fetch : String → Fetch)
    (pubOk markOk : String → String → Bool) (cutoff : Int) (minD today : Nat)
    (channels : List (String × String)) (ledger0 : List SentRecord)
    (hdist : (channels.map Prod.fst).Nodup) (hpub : ∀ c m, pubOk c m = true) :
    (∀ cs : List Msg,
      (topPerChannel cs).length = min VIDEOS_PER_CHANNEL cs.length ∧
      (topPerChannel cs).Pairwise viewsDescRel ∧
      (∀ m ∈ topPerChannel cs, m ∈ cs) ∧
      (∀ y ∈ cs, y ∉ topPerChannel cs →
        ∀ x ∈ topPerChannel cs, viewsOr0 y ≤ viewsOr0 x) ∧
      (∀ a b : Msg, viewsOr0 a = viewsOr0 b → List.Sublist [a, b] cs →
        List.Sublist [a, b] (cs.insertionSort viewsDescRel))) ∧
    (∀ (i : String) (d : Int) (v : Option Video), viewsOr0 ⟨i, d, v, none⟩ = 0) ∧
    (runFold fetch pubOk markOk cutoff minD today channels
        (initState ledger0)).published =
      (channels.map (channelSel fetch ledger0 cutoff minD today)).flatten := by
  refine ⟨?_, ?_, ?_⟩
  · intro cs
    exact ⟨topPerChannel_length cs, topPerChannel_sorted cs,
      topPerChannel_subset cs, topPerChannel_maximal cs,
      fun a b hab h => sort_stable_on_ties cs a b hab h⟩
  · intro i d v; rfl
  · have h := runFold_published_flatten fetch pubOk markOk cutoff minD today
      ledger0 hpub channels (initState ledger0) [] (by simp [initState])
      (by intro r hr; cases hr) hdist
    simpa [initState] using h

/-- Witness for `C7_per_channel_topN`: the spec's example — five
candidates with views [10, 50, 5, 200, 1] select the three
highest-viewed in descending order — read off a concrete run. -/
theorem C7_per_channel_topN_witness :
    topPerChannel [⟨"a", 0, some ⟨some 90⟩, some 10⟩, ⟨"b", 0, some ⟨some 90⟩, some 50⟩,
        ⟨"c", 0, some ⟨some 90⟩, some 5⟩, ⟨"d", 0, some ⟨some 90⟩, some 200⟩,
        ⟨"e", 0, some ⟨some 90⟩, some 1⟩] =
      [⟨"d", 0, some ⟨some 90⟩, some 200⟩, ⟨"b", 0, some ⟨some 90⟩, some 50⟩,
        ⟨"a", 0, some ⟨some 90⟩, some 10⟩] ∧
    (runFold (fun _ => Fetch.ok [⟨"1", 5, some ⟨some 300⟩, some 7⟩])
        (fun _ _ => true) (fun _ _ => true) 0 0 0 [("c", "n")]
        (initState [])).published =
      ([("c", "n")].map (channelSel
        (fun _ => Fetch.ok [⟨"1", 5, some ⟨some 300⟩, some 7⟩]) [] 0 0 0)).flatten := by
  constructor
  · decide
  · exact (C7_per_channel_topN (fun _ => Fetch.ok [⟨"1", 5, some ⟨some 300⟩, some 7⟩])
      (fun _ _ => true) (fun _ _ => true) 0 0 0 [("c", "n")] []
      (by decide) (fun _ _ => rfl)).2.2

/-- C5 (counterexample): the code's only selection path keeps up to
three candidates per channel, never a single global best — on two
qualifying candidates the implemented selector returns both while the
spec's global-best policy returns exactly one, and `daily_job` takes no
selection-policy parameter that could switch behaviours. -/
theorem C5_counterexample :
    topPerChannel [⟨"1", 5, some ⟨some 100⟩, some 7⟩,
        ⟨"2", 4, some ⟨some 100⟩, some 9⟩] ≠
      globalBest [⟨"1", 5, some ⟨some 100⟩, some 7⟩,
        ⟨"2", 4, some ⟨some 100⟩, some 9⟩] ∧
    (topPerChannel [⟨"1", 5, some ⟨some 100⟩, some 7⟩,
        ⟨"2", 4, some ⟨some 100⟩, some 9⟩]).length = 2 ∧
    (globalBest [⟨"1", 5, some ⟨some 100⟩, some 7⟩,
        ⟨"2", 4, some ⟨some 100⟩, some 9⟩]).length = 1 := by
  decide

/-- C5 (amended): the system implements a single, fixed selection
policy — per-channel top-N with `VIDEOS_PER_CHANNEL = 3`. The
global-best scoring policy (`duration × sqrt(views + 1)`, one winner
overall) is not implemented, and no configuration switch exists: every
run's publish list is the per-channel top-3 concatenation. -/
theorem C5_single_policy (fetch : String → Fetch)
    (pubOk markOk : String → String → Bool) (cutoff : Int) (minD today : Nat)
    (channels : List (String × String)) (ledger0 : List SentRecord)
    (hdist : (channels.map Prod.fst).Nodup) (hpub : ∀ c m, pubOk c m = true) :
    (runFold fetch pubOk markOk cutoff minD today channels
        (initState ledger0)).published =
      (channels.map (channelSel fetch ledger0 cutoff minD today)).flatten ∧
    VIDEOS_PER_CHANNEL = 3 := by
  constructor
  · have h := runFold_published_flatten fetch pubOk markOk cutoff minD today
      ledger0 hpub channels (initState ledger0) [] (by simp [initState])
      (by intro r hr; cases hr) hdist
    simpa [initState] using h
  · rfl

/-- Witness for `C5_single_policy` at a concrete two-channel run. -/
theorem C5_single_policy_witness :
    (runFold (fun _ => Fetch.ok [⟨"1", 5, some ⟨some 100⟩, some 7⟩,
        ⟨"2", 4, some ⟨some 100⟩, some 9⟩])
        (fun _ _ => true) (fun _ _ => true) 0 0 0 [("c", "n"), ("d", "m")]
        (initState [])).published =
      ([("c", "n"), ("d", "m")].map (channelSel
        (fun _ => Fetch.ok [⟨"1", 5, some ⟨some 100⟩, some 7⟩,
          ⟨"2", 4, some ⟨some 100⟩, some 9⟩]) [] 0 0 0)).flatten := by
  exact (C5_single_policy (fun _ => Fetch.ok [⟨"1", 5, some ⟨some 100⟩, some 7⟩,
      ⟨"2", 4, some ⟨some 100⟩, some 9⟩])
    (fun _ _ => true) (fun _ _ => true) 0 0 0 [("c", "n"), ("d", "m")] []
    (by decide) (fun _ _ => rfl)).1

end TVBot
